import Mathlib

/-
Verification of the Techolution PRM backend against its specification.
The relevant Python modules (app/routes_data.py, app/routes.py, app/storage.py,
app/config.py, app/models_db.py) are shallowly embedded below: Python strings
become explicit character lists, pandas cell values become an inductive type,
fallible code returns Except, and the relational store becomes an association
list keyed by primary key.
-/

namespace PRM

/-- Python strings are modelled as explicit character lists. -/
abbrev PyStr := List Char

/-- Coerce a Lean string literal into the character-list model. -/
def S (s : String) : PyStr := s.data

/-- Whitespace characters recognised by the Python str.strip method
(ASCII subset; the repository only ever feeds ASCII whitespace). -/
def pyIsSpace (c : Char) : Bool :=
  c == ' ' || c == '\t' || c == '\n' || c == '\r' || c == '\x0b' || c == '\x0c'

/-- Model of the Python str.strip method: drop whitespace at both ends. -/
def pyStrip (s : PyStr) : PyStr :=
  ((s.dropWhile pyIsSpace).reverse.dropWhile pyIsSpace).reverse

/-- Uppercase-to-lowercase table for ASCII letters, the alphabet that actually
occurs in the headers and enum values of this repository. -/
def asciiCase : List (Char × Char) :=
  [('A', 'a'), ('B', 'b'), ('C', 'c'), ('D', 'd'), ('E', 'e'), ('F', 'f'),
   ('G', 'g'), ('H', 'h'), ('I', 'i'), ('J', 'j'), ('K', 'k'), ('L', 'l'),
   ('M', 'm'), ('N', 'n'), ('O', 'o'), ('P', 'p'), ('Q', 'q'), ('R', 'r'),
   ('S', 's'), ('T', 't'), ('U', 'u'), ('V', 'v'), ('W', 'w'), ('X', 'x'),
   ('Y', 'y'), ('Z', 'z')]

/-- Model of the Python str.lower method on a single character. -/
def pyToLower (c : Char) : Char :=
  match asciiCase.find? (fun p => p.1 == c) with
  | some p => p.2
  | none => c

/-- Model of the Python str.lower method. -/
def pyLower (s : PyStr) : PyStr := s.map pyToLower

/-- Model of str.replace with a single-character pattern and replacement. -/
def replaceChar (a b : Char) (s : PyStr) : PyStr :=
  s.map (fun x => if x == a then b else x)

/-- Model of str.replace with a single-character pattern and empty replacement. -/
def removeAll (a : Char) (s : PyStr) : PyStr :=
  s.filter (fun x => !(x == a))

/-- Model of the str.replace call mapping the rupee sign to the literal inr. -/
def expandRupee : PyStr → PyStr
  | [] => []
  | c :: t => if c == '₹' then 'i' :: 'n' :: 'r' :: expandRupee t else c :: expandRupee t

/-- Embedding of the function norm header of app/routes_data.py: lowercase,
trim, spaces to underscores, drop parentheses, rupee sign to inr, slashes to
underscores, applied in exactly the source order. -/
def _norm_header (h : PyStr) : PyStr :=
  replaceChar '/' '_'
    (expandRupee
      (removeAll ')'
        (removeAll '('
          (replaceChar ' ' '_'
            (pyLower (pyStrip h))))))

/-- Lookup in an association list with string keys, mirroring a Python dict
access that preserves insertion order. -/
def alookup {α : Type} (l : List (PyStr × α)) (k : PyStr) : Option α :=
  (l.find? (fun p => p.1 == k)).map (fun p => p.2)

/-- Embedding of the function resolve columns of app/routes_data.py: for each
canonical field, in mapping order, pick the first candidate alias present in
the column list; fields without a match are left out of the result. -/
def _resolve_columns : List (PyStr × List PyStr) → List PyStr → List (PyStr × PyStr)
  | [], _ => []
  | (k, cands) :: rest, cols =>
    match cands.find? (fun c => cols.contains c) with
    | some c => (k, c) :: _resolve_columns rest cols
    | none => _resolve_columns rest cols

/-- Embedding of the RES MAPPING dict of app/routes_data.py. -/
def _RES_MAPPING : List (PyStr × List PyStr) :=
  [(S "resource_id", [S "resource_id", S "id"]),
   (S "name", [S "name", S "full_name"]),
   (S "role", [S "role", S "designation"]),
   (S "skills", [S "skills", S "skillset"]),
   (S "proficiency_level", [S "proficiency_level", S "proficiency", S "skill_level"]),
   (S "capacity_hrs_per_week", [S "capacity_hrs_per_week", S "capacity", S "weekly_capacity"]),
   (S "current_commitments", [S "current_commitments", S "commitments"]),
   (S "availability_date", [S "availability_date", S "available_from"]),
   (S "location_timezone", [S "location_timezone", S "location_time_zone", S "timezone", S "location"]),
   (S "employment_type", [S "employment_type", S "employment", S "emp_type"]),
   (S "cost_per_hour_inr", [S "cost_per_hour_inr", S "cost_per_hour", S "rate_inr", S "hourly_rate_inr"])]

/-- Embedding of the PROJ MAPPING dict of app/routes_data.py. Note that its
keys are camel-case presentation names, not the database column names. -/
def _PROJ_MAPPING : List (PyStr × List PyStr) :=
  [(S "id", [S "project_id", S "id", S "p_id"]),
   (S "name", [S "project_name", S "name", S "title"]),
   (S "problemStatement", [S "summary", S "problem_statement", S "description"]),
   (S "requiredSkills", [S "required_skills", S "skills"]),
   (S "requiredSeniorityMix", [S "staffing_mix", S "target_staffing_mix"]),
   (S "startDate", [S "start_date", S "kickoff", S "start"]),
   (S "endDate", [S "end_date", S "finish", S "end"]),
   (S "milestones", [S "milestones", S "phases", S "plan"]),
   (S "targetStaffing", [S "required_roles", S "roles"]),
   (S "priority", [S "priority", S "prio"]),
   (S "budget", [S "budget_inr", S "budget", S "cost_inr"]),
   (S "compliance", [S "compliance", S "constraints"])]

/-- Required canonical fields checked by the resource upload endpoint. -/
def resourceRequired : List PyStr := [S "resource_id", S "name", S "role", S "skills"]

/-- Required canonical fields checked by the project upload endpoint. -/
def projectRequired : List PyStr := [S "project_id", S "name"]

/-- Embedding of the required-columns list comprehension of both upload
endpoints: the required keys that are absent from the resolution map. -/
def requiredMissing (required : List PyStr) (resolved : List (PyStr × PyStr)) : List PyStr :=
  required.filter (fun k => (alookup resolved k).isNone)

/-- Resolution can only produce keys that appear in the mapping. -/
theorem alookup_resolve_of_not_key (m : List (PyStr × List PyStr)) (cols : List PyStr)
    (k : PyStr) (h : alookup m k = none) : alookup (_resolve_columns m cols) k = none := by
  induction m with
  | nil => rfl
  | cons hd tl ih =>
    obtain ⟨k0, cands⟩ := hd
    have hhead : (k0 == k) = false := by
      by_contra hne
      have : (k0 == k) = true := by
        cases hk : (k0 == k) with
        | false => exact absurd hk hne
        | true => rfl
      simp [alookup, List.find?_cons, this] at h
    have htl : alookup tl k = none := by
      simpa [alookup, List.find?_cons, hhead] using h
    simp only [_resolve_columns]
    cases hf : cands.find? (fun c => cols.contains c) with
    | none => exact ih htl
    | some c =>
      have := ih htl
      simp [alookup, List.find?_cons, hhead] at this ⊢
      exact this

/-- Concrete check: no lowercase letter produced by the case table is itself a
key of the case table. -/
theorem asciiCase_snd_not_key :
    ∀ p ∈ asciiCase, asciiCase.find? (fun q => q.1 == p.2) = none := by decide

/-- Concrete check: neither side of the case table is a whitespace character. -/
theorem asciiCase_not_space :
    ∀ p ∈ asciiCase, pyIsSpace p.1 = false ∧ pyIsSpace p.2 = false := by decide

/-- Lowercasing a character is idempotent. -/
theorem pyToLower_idem (c : Char) : pyToLower (pyToLower c) = pyToLower c := by
  cases hf : asciiCase.find? (fun p => p.1 == c) with
  | none =>
    have hc : pyToLower c = c := by simp [pyToLower, hf]
    rw [hc]
    exact hc
  | some p =>
    have hc : pyToLower c = p.2 := by simp [pyToLower, hf]
    have hmem := List.mem_of_find?_eq_some hf
    have h2 : pyToLower p.2 = p.2 := by simp [pyToLower, asciiCase_snd_not_key p hmem]
    rw [hc, h2]

/-- Lowercasing does not change whether a character is whitespace. -/
theorem pyIsSpace_pyToLower (c : Char) : pyIsSpace (pyToLower c) = pyIsSpace c := by
  cases hf : asciiCase.find? (fun p => p.1 == c) with
  | none => simp [pyToLower, hf]
  | some p =>
    have hc : pyToLower c = p.2 := by simp [pyToLower, hf]
    have hmem := List.mem_of_find?_eq_some hf
    have hkeq : p.1 = c := eq_of_beq (by simpa using List.find?_some hf)
    have hns := asciiCase_not_space p hmem
    rw [hc, hns.2, ← hkeq, hns.1]

/-- Dropping by a predicate that holds nowhere in the list is the identity. -/
theorem dropWhile_eq_self_of_forall {p : Char → Bool} :
    ∀ l : PyStr, (∀ c ∈ l, p c = false) → l.dropWhile p = l
  | [], _ => rfl
  | a :: l, h => by simp [List.dropWhile_cons, h a (List.mem_cons_self a l)]

/-- Stripping a list without whitespace characters is the identity. -/
theorem pyStrip_eq_self_of_forall (l : PyStr) (h : ∀ c ∈ l, pyIsSpace c = false) :
    pyStrip l = l := by
  unfold pyStrip
  rw [dropWhile_eq_self_of_forall l h]
  rw [dropWhile_eq_self_of_forall l.reverse (fun c hc => h c (List.mem_reverse.mp hc))]
  exact List.reverse_reverse l

/-- Mapping a function that fixes every member of a list is the identity. -/
theorem map_eq_self_of_forall {α : Type} {f : α → α} :
    ∀ l : List α, (∀ x ∈ l, f x = x) → l.map f = l
  | [], _ => rfl
  | a :: l, h => by
    rw [List.map_cons, h a (List.mem_cons_self a l),
      map_eq_self_of_forall l (fun x hx => h x (List.mem_cons_of_mem a hx))]

/-- Members of a pyStrip result are members of the original list. -/
theorem mem_of_mem_pyStrip {c : Char} {l : PyStr} (h : c ∈ pyStrip l) : c ∈ l := by
  unfold pyStrip at h
  have h1 := List.mem_reverse.mp h
  have h2 := (List.dropWhile_sublist pyIsSpace).subset h1
  have h3 := List.mem_reverse.mp h2
  exact (List.dropWhile_sublist pyIsSpace).subset h3

/-- Membership description for the rupee expansion. -/
theorem mem_expandRupee {c : Char} {l : PyStr} (h : c ∈ expandRupee l) :
    c = 'i' ∨ c = 'n' ∨ c = 'r' ∨ (c ∈ l ∧ (c == '₹') = false) := by
  induction l with
  | nil => exact absurd h (List.not_mem_nil c)
  | cons a t ih =>
    by_cases ha : (a == '₹') = true
    · rw [expandRupee, if_pos ha] at h
      simp only [List.mem_cons] at h
      rcases h with rfl | rfl | rfl | h
      · exact Or.inl rfl
      · exact Or.inr (Or.inl rfl)
      · exact Or.inr (Or.inr (Or.inl rfl))
      · rcases ih h with h1 | h1 | h1 | ⟨hm, hr⟩
        · exact Or.inl h1
        · exact Or.inr (Or.inl h1)
        · exact Or.inr (Or.inr (Or.inl h1))
        · exact Or.inr (Or.inr (Or.inr ⟨List.mem_cons_of_mem a hm, hr⟩))
    · rw [expandRupee, if_neg ha] at h
      simp only [List.mem_cons] at h
      rcases h with rfl | h
      · refine Or.inr (Or.inr (Or.inr ⟨List.mem_cons_self c t, ?_⟩))
        cases hx : (c == '₹') with
        | false => rfl
        | true => exact absurd hx ha
      · rcases ih h with h1 | h1 | h1 | ⟨hm, hr⟩
        · exact Or.inl h1
        · exact Or.inr (Or.inl h1)
        · exact Or.inr (Or.inr (Or.inl h1))
        · exact Or.inr (Or.inr (Or.inr ⟨List.mem_cons_of_mem a hm, hr⟩))

/-- Expanding the rupee sign in a list that does not contain it is the identity. -/
theorem expandRupee_eq_self_of_forall :
    ∀ l : PyStr, (∀ c ∈ l, (c == '₹') = false) → expandRupee l = l
  | [], _ => rfl
  | a :: l, h => by
    rw [expandRupee, if_neg (by simp [h a (List.mem_cons_self a l)]),
      expandRupee_eq_self_of_forall l (fun c hc => h c (List.mem_cons_of_mem a hc))]

/-- Characters that every stage of header normalisation leaves unchanged. -/
def normFixed (c : Char) : Bool :=
  !(pyIsSpace c) && (pyToLower c == c) &&
    !(c == '(') && !(c == ')') && !(c == '₹') && !(c == '/')

/-- When the only whitespace in a header is the plain space character, every
character of the normalised header is fixed by all normalisation stages. -/
theorem norm_header_chars (h : PyStr) (hws : ∀ c ∈ h, pyIsSpace c = true → c = ' ') :
    ∀ c ∈ _norm_header h, normFixed c = true := by
  intro c hc
  simp only [_norm_header, replaceChar] at hc
  rcases List.mem_map.mp hc with ⟨c5, hc5, hceq⟩
  have stage2Good : ∀ x ∈ replaceChar ' ' '_' (pyLower (pyStrip h)),
      pyIsSpace x = false ∧ (pyToLower x == x) = true := by
    intro x hx
    rcases List.mem_map.mp hx with ⟨x1, hx1, hxeq⟩
    rcases List.mem_map.mp hx1 with ⟨x0, hx0, hx1eq⟩
    have hx0h : x0 ∈ h := mem_of_mem_pyStrip hx0
    by_cases hsp : (x1 == ' ') = true
    · rw [← hxeq, if_pos hsp]
      exact ⟨by decide, by decide⟩
    · rw [← hxeq, if_neg hsp]
      constructor
      · rw [← hx1eq, pyIsSpace_pyToLower]
        cases hx0sp : pyIsSpace x0 with
        | false => rfl
        | true =>
          exfalso
          have : x0 = ' ' := hws x0 hx0h hx0sp
          apply hsp
          rw [← hx1eq, this]
          decide
      · rw [← hx1eq]
        exact beq_iff_eq.mpr (pyToLower_idem x0)
  rcases mem_expandRupee hc5 with h5 | h5 | h5 | h5
  · rw [← hceq, h5]; decide
  · rw [← hceq, h5]; decide
  · rw [← hceq, h5]; decide
  · obtain ⟨h5mem, h5rupee⟩ := h5
    have h4 := List.mem_filter.mp h5mem
    have h4paren : (c5 == ')') = false := by
      have := h4.2
      cases hx : (c5 == ')') with
      | false => rfl
      | true => rw [hx] at this; exact absurd this (by decide)
    have h3 := List.mem_filter.mp h4.1
    have h3paren : (c5 == '(') = false := by
      have := h3.2
      cases hx : (c5 == '(') with
      | false => rfl
      | true => rw [hx] at this; exact absurd this (by decide)
    have h2 := stage2Good c5 h3.1
    by_cases hsl : (c5 == '/') = true
    · rw [← hceq, if_pos hsl]; decide
    · have hsl' : (c5 == '/') = false := by
        cases hx : (c5 == '/') with
        | false => rfl
        | true => exact absurd hx hsl
      rw [← hceq, if_neg hsl]
      simp only [normFixed, h2.1, h2.2, h3paren, h4paren, h5rupee, hsl']
      rfl

/-- Normalisation is the identity on a list all of whose characters are fixed
by every stage. -/
theorem norm_header_fixed (l : PyStr) (hfix : ∀ c ∈ l, normFixed c = true) :
    _norm_header l = l := by
  have hprops : ∀ c ∈ l, pyIsSpace c = false ∧ (pyToLower c == c) = true ∧
      (c == '(') = false ∧ (c == ')') = false ∧ (c == '₹') = false ∧ (c == '/') = false := by
    intro c hc
    have := hfix c hc
    simp only [normFixed, Bool.and_eq_true, Bool.not_eq_true'] at this
    exact ⟨this.1.1.1.1.1, this.1.1.1.1.2, this.1.1.1.2, this.1.1.2, this.1.2, this.2⟩
  have e1 : pyStrip l = l :=
    pyStrip_eq_self_of_forall l (fun c hc => (hprops c hc).1)
  have e2 : pyLower l = l :=
    map_eq_self_of_forall l (fun c hc => eq_of_beq (hprops c hc).2.1)
  have e3 : replaceChar ' ' '_' l = l := by
    apply map_eq_self_of_forall
    intro c hc
    have hsp := (hprops c hc).1
    have : (c == ' ') = false := by
      cases hx : (c == ' ') with
      | false => rfl
      | true => rw [eq_of_beq hx] at hsp; exact absurd hsp (by decide)
    rw [this]
    rfl
  have e4 : removeAll '(' l = l :=
    List.filter_eq_self.mpr (fun c hc => by rw [(hprops c hc).2.2.1]; rfl)
  have e5 : removeAll ')' l = l :=
    List.filter_eq_self.mpr (fun c hc => by rw [(hprops c hc).2.2.2.1]; rfl)
  have e6 : expandRupee l = l :=
    expandRupee_eq_self_of_forall l (fun c hc => (hprops c hc).2.2.2.2.1)
  have e7 : replaceChar '/' '_' l = l := by
    apply map_eq_self_of_forall
    intro c hc
    rw [(hprops c hc).2.2.2.2.2]
    rfl
  simp only [_norm_header, e1, e2, e3, e4, e5, e6, e7]

/-- C1: for the project upload endpoint the claim fails because the required
check tests the key project id, which is never a key of the camel-case
resolution map produced from PROJ MAPPING; hence every project upload aborts
with the 422 missing-required-columns error, including a file whose
normalised headers are project id and name, aliases of both required fields.
The theorem shows the abort happens for every header list, and that at the
concrete header list both required fields do resolve (identifier under the
mapping key id) while the reported missing list is nonempty. -/
theorem C1_project_upload_always_aborts :
    (∀ cols : List PyStr,
        S "project_id" ∈ requiredMissing projectRequired (_resolve_columns _PROJ_MAPPING cols)) ∧
    requiredMissing projectRequired
        (_resolve_columns _PROJ_MAPPING (List.map _norm_header [S "Project ID", S "Name"]))
      = [S "project_id"] ∧
    alookup (_resolve_columns _PROJ_MAPPING (List.map _norm_header [S "Project ID", S "Name"]))
        (S "id") = some (S "project_id") := by
  refine ⟨fun cols => ?_, by decide, by decide⟩
  have h0 : alookup _PROJ_MAPPING (S "project_id") = none := by decide
  have h1 := alookup_resolve_of_not_key _PROJ_MAPPING cols (S "project_id") h0
  apply List.mem_filter.mpr
  constructor
  · decide
  · rw [h1]; rfl

/-- C2: at a project upload whose only normalised header is project id, the
identifier field resolves (under the mapping key id), yet the reported
required-missing list is project id and name, so it contains a field that did
resolve; the specification demands exactly the fields that failed to resolve. -/
theorem C2_required_missing_contains_resolved_field :
    alookup (_resolve_columns _PROJ_MAPPING (List.map _norm_header [S "Project ID"]))
        (S "id") = some (S "project_id") ∧
    requiredMissing projectRequired
        (_resolve_columns _PROJ_MAPPING (List.map _norm_header [S "Project ID"]))
      = [S "project_id", S "name"] := by decide

/-- C10 counterexample: a header containing a tab between parentheses is not a
fixed point after one normalisation, because removing the parentheses exposes
the tab, which the second strip removes. -/
theorem C10_counterexample :
    _norm_header (_norm_header (S "(\ta)")) ≠ _norm_header (S "(\ta)") := by decide

/-- C10 amended: header normalisation is idempotent for every header whose
whitespace characters are all plain spaces; a header with an interior tab or
newline adjacent to a parenthesis can break idempotence. -/
theorem C10_norm_header_idem (h : PyStr) (hws : ∀ c ∈ h, pyIsSpace c = true → c = ' ') :
    _norm_header (_norm_header h) = _norm_header h :=
  norm_header_fixed _ (norm_header_chars h hws)

/-- Witness for the amended C10 at a concrete spreadsheet-style header. -/
theorem C10_norm_header_idem_witness :
    (∀ c ∈ S "Cost  (INR) / hr", pyIsSpace c = true → c = ' ') ∧
    _norm_header (_norm_header (S "Cost  (INR) / hr")) = _norm_header (S "Cost  (INR) / hr") :=
  ⟨by decide, C10_norm_header_idem (S "Cost  (INR) / hr") (by decide)⟩

/-- Calendar dates as produced by the Python datetime date constructor. -/
structure PDate where
  year : Nat
  month : Nat
  day : Nat
deriving DecidableEq

/-- Gregorian leap-year rule used by the Python datetime module. -/
def isLeap (y : Nat) : Bool := y % 4 == 0 && (y % 100 != 0 || y % 400 == 0)

/-- Number of days of a month in a given year. -/
def daysInMonth (y m : Nat) : Nat :=
  if m == 2 then (if isLeap y then 29 else 28)
  else if m == 4 || m == 6 || m == 9 || m == 11 then 30
  else 31

/-- Validity of a date, matching the checks of the datetime date constructor. -/
def dateValid (d : PDate) : Bool :=
  1 ≤ d.year && d.year ≤ 9999 && 1 ≤ d.month && d.month ≤ 12 &&
    1 ≤ d.day && d.day ≤ daysInMonth d.year d.month

/-- ASCII digit test. -/
def isDigitChar (c : Char) : Bool := '0' ≤ c && c ≤ '9'

/-- Numeric value of an ASCII digit. -/
def digitVal (c : Char) : Nat := c.toNat - '0'.toNat

/-- Candidates for the strptime year directive: exactly four digits. -/
def candsYear : PyStr → List (Nat × PyStr)
  | a :: b :: c :: d :: rest =>
    if isDigitChar a && isDigitChar b && isDigitChar c && isDigitChar d then
      [(1000 * digitVal a + 100 * digitVal b + 10 * digitVal c + digitVal d, rest)]
    else []
  | _ => []

/-- Candidates for the strptime month directive, in the alternation order of
the CPython regex: a two-digit month from 01 to 12, then a one-digit month. -/
def candsMonth : PyStr → List (Nat × PyStr)
  | a :: b :: rest =>
    (if a == '1' && ('0' ≤ b && b ≤ '2') then [(10 + digitVal b, rest)] else []) ++
    (if a == '0' && ('1' ≤ b && b ≤ '9') then [(digitVal b, rest)] else []) ++
    (if '1' ≤ a && a ≤ '9' then [(digitVal a, b :: rest)] else [])
  | [a] => if '1' ≤ a && a ≤ '9' then [(digitVal a, [])] else []
  | [] => []

/-- Candidates for the strptime day directive, in the alternation order of the
CPython regex: 30 or 31, then 10 to 29, then 01 to 09, then a single digit. -/
def candsDay : PyStr → List (Nat × PyStr)
  | a :: b :: rest =>
    (if a == '3' && (b == '0' || b == '1') then [(30 + digitVal b, rest)] else []) ++
    (if ('1' ≤ a && a ≤ '2') && isDigitChar b then [(10 * digitVal a + digitVal b, rest)] else []) ++
    (if a == '0' && ('1' ≤ b && b ≤ '9') then [(digitVal b, rest)] else []) ++
    (if '1' ≤ a && a ≤ '9' then [(digitVal a, b :: rest)] else [])
  | [a] => if '1' ≤ a && a ≤ '9' then [(digitVal a, [])] else []
  | [] => []

/-- Tokens of a strptime format string: the three numeric directives used by
the repository and literal separator characters. -/
inductive FTok
  | year
  | month
  | day
  | lit (c : Char)

/-- Partially assembled date fields during format matching. -/
structure PartialDate where
  y : Option Nat
  m : Option Nat
  d : Option Nat

/-- Backtracking matcher for a strptime format over an input string; the whole
input must be consumed, exactly as strptime rejects unconverted data. -/
def matchToks : List FTok → PyStr → PartialDate → Option PartialDate
  | [], [], acc => some acc
  | [], _ :: _, _ => none
  | FTok.lit c :: ts, input, acc =>
    match input with
    | [] => none
    | x :: rest => if x == c then matchToks ts rest acc else none
  | FTok.year :: ts, input, acc =>
    (candsYear input).findSome? (fun pr => matchToks ts pr.2 { acc with y := some pr.1 })
  | FTok.month :: ts, input, acc =>
    (candsMonth input).findSome? (fun pr => matchToks ts pr.2 { acc with m := some pr.1 })
  | FTok.day :: ts, input, acc =>
    (candsDay input).findSome? (fun pr => matchToks ts pr.2 { acc with d := some pr.1 })

/-- Embedding of one datetime strptime call followed by the date projection:
match the format, then validate the assembled calendar date. -/
def datetime_strptime (fmt : List FTok) (s : PyStr) : Option PDate :=
  match matchToks fmt s ⟨none, none, none⟩ with
  | none => none
  | some acc =>
    if dateValid ⟨acc.y.getD 1900, acc.m.getD 1, acc.d.getD 1⟩ then
      some ⟨acc.y.getD 1900, acc.m.getD 1, acc.d.getD 1⟩
    else none

/-- Format Y-m-d. -/
def fmtYdashMdashD : List FTok := [FTok.year, FTok.lit '-', FTok.month, FTok.lit '-', FTok.day]

/-- Format d-m-Y. -/
def fmtDdashMdashY : List FTok := [FTok.day, FTok.lit '-', FTok.month, FTok.lit '-', FTok.year]

/-- Format d/m/Y. -/
def fmtDslashMslashY : List FTok := [FTok.day, FTok.lit '/', FTok.month, FTok.lit '/', FTok.year]

/-- Format Y/m/d. -/
def fmtYslashMslashD : List FTok := [FTok.year, FTok.lit '/', FTok.month, FTok.lit '/', FTok.day]

/-- Format m/d/Y. -/
def fmtMslashDslashY : List FTok := [FTok.month, FTok.lit '/', FTok.day, FTok.lit '/', FTok.year]

/-- The ordered format list tried by the function to date of
app/routes_data.py. -/
def dateFormats : List (List FTok) :=
  [fmtYdashMdashD, fmtDdashMdashY, fmtDslashMslashY, fmtYslashMslashD, fmtMslashDslashY]

/-- Raw spreadsheet cell values as they reach the coercers: the Python None
value, a pandas NaN (any non-string float value behaves alike here), or a
string. -/
inductive RawCell
  | pynone
  | nan
  | str (s : PyStr)
deriving DecidableEq

/-- Model of the Python str conversion applied to a raw cell value. -/
def pyStrOfCell : RawCell → PyStr
  | RawCell.pynone => S "None"
  | RawCell.nan => S "nan"
  | RawCell.str s => s

/-- String branch of the function to date: strip, try the five formats in
order, otherwise fall back to the pandas to datetime library call, which is
modelled as an arbitrary parameter because it is external library code. -/
def _to_date_str (fb : PyStr → Option PDate) (s : PyStr) : Option PDate :=
  if (pyStrip s).isEmpty then none
  else
    match dateFormats.findSome? (fun f => datetime_strptime f (pyStrip s)) with
    | some d => some d
    | none => fb s

/-- Embedding of the function to date of app/routes_data.py. -/
def _to_date (fb : PyStr → Option PDate) (v : RawCell) : Option PDate :=
  match v with
  | RawCell.pynone => none
  | RawCell.nan => none
  | RawCell.str s => _to_date_str fb s

/-- Model of the Python str.split method with a single separator character;
empty pieces are kept, as in Python. -/
def splitOn (sep : Char) : PyStr → List PyStr
  | [] => [[]]
  | c :: t =>
    match splitOn sep t with
    | h :: r => if c == sep then [] :: h :: r else (c :: h) :: r
    | [] => [[c]]

/-- Shared tail of the function split list: semicolons to commas, split on
commas, strip each piece, drop empty pieces. -/
def splitPieces (s : PyStr) : List PyStr :=
  if s.isEmpty then []
  else ((splitOn ',' (replaceChar ';' ',' s)).map pyStrip).filter (fun x => !x.isEmpty)

/-- Embedding of the function split list of app/routes_data.py. -/
def _split_list (v : RawCell) : List PyStr :=
  match v with
  | RawCell.pynone => []
  | RawCell.nan => splitPieces (pyStrip (S "nan"))
  | RawCell.str s => splitPieces (pyStrip s)

/-- Values of the Python float type: finite values are modelled as rationals,
since no claim depends on binary rounding; infinities and NaN are kept
explicit because the int conversion rejects them. -/
inductive PyFloat
  | finite (q : Rat)
  | inf (neg : Bool)
  | nan
deriving DecidableEq

/-- Consume leading ASCII digits, returning their value, how many there were,
and the rest of the string. -/
def takeDigits : PyStr → Nat × Nat × PyStr
  | [] => (0, 0, [])
  | c :: t =>
    if isDigitChar c then
      let r := takeDigits t
      (digitVal c * 10 ^ r.2.1 + r.1, r.2.1 + 1, r.2.2)
    else (0, 0, c :: t)

/-- Case-insensitive string comparison. -/
def ciEq (s t : PyStr) : Bool := pyLower s == pyLower t

/-- Assemble a rational from sign, integer part, fractional part with its
digit count, and a signed decimal exponent. -/
def ratOfParts (neg : Bool) (ip fp nf : Nat) (eneg : Bool) (ev : Nat) : Rat :=
  let mant : Rat := (ip : Rat) + (fp : Rat) / ((10 : Rat) ^ nf)
  let scaled : Rat := if eneg then mant / ((10 : Rat) ^ ev) else mant * ((10 : Rat) ^ ev)
  if neg then -scaled else scaled

/-- Model of the Python float constructor on strings: optional sign, the
special spellings inf, infinity and nan, or a decimal literal with optional
fraction and exponent. Simplifications relative to CPython: underscores
between digits are not modelled and huge exponents do not overflow to
infinity; neither case is reachable in the claims settled here. -/
def pyFloatParse (s0 : PyStr) : Option PyFloat :=
  let s := pyStrip s0
  let sgn : Bool × PyStr :=
    match s with
    | '+' :: t => (false, t)
    | '-' :: t => (true, t)
    | _ => (false, s)
  let neg := sgn.1
  let s1 := sgn.2
  if ciEq s1 (S "inf") || ciEq s1 (S "infinity") then some (PyFloat.inf neg)
  else if ciEq s1 (S "nan") then some PyFloat.nan
  else
    let ipr := takeDigits s1
    let fpr : Nat × Nat × PyStr :=
      match ipr.2.2 with
      | '.' :: t => takeDigits t
      | _ => (0, 0, ipr.2.2)
    if ipr.2.1 + fpr.2.1 == 0 then none
    else
      match fpr.2.2 with
      | [] => some (PyFloat.finite (ratOfParts neg ipr.1 fpr.1 fpr.2.1 false 0))
      | e :: t =>
        if e == 'e' || e == 'E' then
          let esgn : Bool × PyStr :=
            match t with
            | '+' :: u => (false, u)
            | '-' :: u => (true, u)
            | _ => (false, t)
          let epr := takeDigits esgn.2
          if epr.2.1 == 0 || !epr.2.2.isEmpty then none
          else some (PyFloat.finite (ratOfParts neg ipr.1 fpr.1 fpr.2.1 esgn.1 epr.1))
        else none

/-- Truncation toward zero, as performed by the Python int conversion. -/
def ratTrunc (q : Rat) : Int := Int.tdiv q.num (q.den : Int)

/-- Embedding of the function parse int of app/routes_data.py. -/
def _parse_int (v : RawCell) : Option Int :=
  match v with
  | RawCell.pynone => none
  | RawCell.nan => none
  | RawCell.str s0 =>
    let s := removeAll ',' (pyStrip s0)
    if s.isEmpty then none
    else
      match pyFloatParse s with
      | some (PyFloat.finite q) => some (ratTrunc q)
      | _ => none

/-- Embedding of the function parse float of app/routes_data.py. -/
def _parse_float (v : RawCell) : Option PyFloat :=
  match v with
  | RawCell.pynone => none
  | RawCell.nan => none
  | RawCell.str s0 =>
    let s := removeAll ',' (pyStrip s0)
    if s.isEmpty then none
    else pyFloatParse s

/-- The Proficiency enumeration of app/models_db.py as name and value pairs. -/
def proficiencyEnum : List (PyStr × PyStr) :=
  [(S "Beginner", S "Beginner"), (S "Intermediate", S "Intermediate"),
   (S "Advanced", S "Advanced"), (S "Expert", S "Expert")]

/-- The EmploymentType enumeration of app/models_db.py. -/
def employmentEnum : List (PyStr × PyStr) :=
  [(S "Intern", S "Intern"), (S "FullTime", S "Full-time"), (S "Contractor", S "Contractor")]

/-- The Priority enumeration of app/models_db.py. -/
def priorityEnum : List (PyStr × PyStr) :=
  [(S "Low", S "Low"), (S "Medium", S "Medium"), (S "High", S "High")]

/-- Embedding of the function enum or none of app/routes_data.py. A falsy
value yields the absent value; a string is matched by exact value, then
case-insensitively by value or name inside the exception handler. A truthy
non-string value such as a pandas NaN makes the enum constructor raise, and
the handler then calls the lower method on the non-string value, which raises
an AttributeError that nothing catches: this is modelled by the error result. -/
def _enum_or_none (members : List (PyStr × PyStr)) (value : RawCell) :
    Except PyStr (Option PyStr) :=
  match value with
  | RawCell.pynone => Except.ok none
  | RawCell.str s =>
    if s.isEmpty then Except.ok none
    else
      match members.find? (fun m => m.2 == s) with
      | some m => Except.ok (some m.2)
      | none =>
        let sl := pyLower s
        Except.ok ((members.find? (fun m => pyLower m.2 == sl || pyLower m.1 == sl)).map
          (fun m => m.2))
  | RawCell.nan =>
    Except.error (S "AttributeError: float object has no attribute lower")

/-- A successful strptime embedding only produces valid calendar dates. -/
theorem datetime_strptime_valid {fmt : List FTok} {s : PyStr} {d : PDate}
    (h : datetime_strptime fmt s = some d) : dateValid d = true := by
  unfold datetime_strptime at h
  split at h
  · exact absurd h (by simp)
  · split at h
    · cases h
      assumption
    · exact absurd h (by simp)

/-- Case analysis of the string branch of the date coercer: absent, a valid
parsed date, or whatever the library fallback returned. -/
theorem to_date_str_cases (fb : PyStr → Option PDate) (s : PyStr) :
    _to_date_str fb s = none ∨
      (∃ d, _to_date_str fb s = some d ∧ dateValid d = true) ∨
      (∃ t, _to_date_str fb s = fb t) := by
  unfold _to_date_str
  by_cases he : (pyStrip s).isEmpty
  · rw [if_pos he]
    exact Or.inl rfl
  · rw [if_neg he]
    cases hm : dateFormats.findSome? (fun f => datetime_strptime f (pyStrip s)) with
    | some d =>
      refine Or.inr (Or.inl ⟨d, rfl, ?_⟩)
      obtain ⟨f, _, hf⟩ := List.exists_of_findSome?_eq_some hm
      exact datetime_strptime_valid hf
    | none => exact Or.inr (Or.inr ⟨s, rfl⟩)

/-- Pieces produced by the list coercer are nonempty. -/
theorem splitPieces_pieces_nonempty (s : PyStr) : ∀ x ∈ splitPieces s, x ≠ [] := by
  intro x hx
  unfold splitPieces at hx
  split at hx
  · exact absurd hx (List.not_mem_nil x)
  · have := (List.mem_filter.mp hx).2
    intro hempty
    rw [hempty] at this
    exact absurd this (by decide)

/-- C4 is confirmed: the date coercer tries the five formats in source order
with first success winning. The input 15-01-2024 is rejected by the four-digit
year of the first format and parsed by the day-month-year format; the input
2024/01/15 fails the day-first slash formats and is parsed by Y/m/d; the
ambiguous input 01/02/2024 is parsed as the first of February because d/m/Y
precedes m/d/Y. The last conjunct restates the full string branch: strip, the
ordered format chain, then the library fallback. -/
theorem C4_date_format_order :
    (∀ fb, _to_date fb (RawCell.str (S "15-01-2024")) = some ⟨2024, 1, 15⟩) ∧
    (∀ fb, _to_date fb (RawCell.str (S "2024/01/15")) = some ⟨2024, 1, 15⟩) ∧
    (∀ fb, _to_date fb (RawCell.str (S "01/02/2024")) = some ⟨2024, 2, 1⟩) ∧
    (∀ fb s, _to_date fb (RawCell.str s) =
      (if (pyStrip s).isEmpty then none
       else
         match dateFormats.findSome? (fun f => datetime_strptime f (pyStrip s)) with
         | some d => some d
         | none => fb s)) :=
  ⟨fun _ => rfl, fun _ => rfl, fun _ => rfl, fun _ _ => rfl⟩

/-- C3 is a code bug: the list, date, integer and decimal coercers are total
functions into an optional typed value (lists of nonempty pieces, valid
calendar dates unless the library fallback produced the result, optional
integers and optional floats), and the enum coercer is total on None and on
every string; but on a truthy non-string value such as a pandas NaN the enum
coercer raises an AttributeError instead of returning the absent value,
because the exception handler calls the lower method on the raw value. -/
theorem C3_enum_coercer_raises_on_nan :
    (∀ v : RawCell, ∀ x ∈ _split_list v, x ≠ []) ∧
    (∀ fb (v : RawCell), _to_date fb v = none ∨
      (∃ d, _to_date fb v = some d ∧ dateValid d = true) ∨ (∃ s, _to_date fb v = fb s)) ∧
    (∀ v : RawCell, _parse_int v = none ∨ ∃ n, _parse_int v = some n) ∧
    (∀ v : RawCell, _parse_float v = none ∨ ∃ f, _parse_float v = some f) ∧
    (∀ members s, ∃ r, _enum_or_none members (RawCell.str s) = Except.ok r) ∧
    (∀ members, _enum_or_none members RawCell.pynone = Except.ok none) ∧
    _enum_or_none proficiencyEnum RawCell.nan =
      Except.error (S "AttributeError: float object has no attribute lower") := by
  refine ⟨?_, ?_, ?_, ?_, ?_, fun _ => rfl, rfl⟩
  · intro v x hx
    cases v with
    | pynone => exact absurd hx (List.not_mem_nil x)
    | nan => exact splitPieces_pieces_nonempty _ x hx
    | str s => exact splitPieces_pieces_nonempty _ x hx
  · intro fb v
    cases v with
    | pynone => exact Or.inl rfl
    | nan => exact Or.inl rfl
    | str s => exact to_date_str_cases fb s
  · intro v
    cases h : _parse_int v with
    | none => exact Or.inl rfl
    | some n => exact Or.inr ⟨n, rfl⟩
  · intro v
    cases h : _parse_float v with
    | none => exact Or.inl rfl
    | some f => exact Or.inr ⟨f, rfl⟩
  · intro members s
    simp only [_enum_or_none]
    by_cases he : s.isEmpty
    · rw [if_pos he]
      exact ⟨none, rfl⟩
    · rw [if_neg he]
      cases hf : members.find? (fun m => m.2 == s) with
      | some m =>
        simp only [hf]
        exact ⟨some m.2, rfl⟩
      | none =>
        simp only [hf]
        exact ⟨_, rfl⟩

/-- Database row built by the resource upload loop, one field per keyword
argument of the Resource constructor call in app/routes_data.py. -/
structure ResourceRec where
  resource_id : PyStr
  name : PyStr
  role : PyStr
  skills : List PyStr
  proficiency_level : Option PyStr
  capacity_hrs_per_week : Option Int
  current_commitments : Option PyStr
  availability_date : Option PDate
  location_timezone : Option PyStr
  employment_type : Option PyStr
  cost_per_hour_inr : Option PyFloat
  conversation_id : PyStr
  user_id : PyStr
deriving DecidableEq

/-- A parsed spreadsheet row: cell values aligned with the column list. -/
abbrev Row := List RawCell

/-- Model of the pandas row get access with a default: an absent key (an
unresolved field gives the key None) or an unknown column yields the default. -/
def rowGetD (cols : List PyStr) (row : Row) (k : Option PyStr) (dflt : RawCell) : RawCell :=
  match k with
  | none => dflt
  | some h =>
    match cols.findIdx? (fun c => c == h) with
    | some i => (row.get? i).getD dflt
    | none => dflt

/-- Model of the trailing or None pattern applied to stripped strings. -/
def strOrNone (s : PyStr) : Option PyStr := if s.isEmpty then none else some s

/-- Embedding of the Resource constructor call of the resource upload loop.
The two enum coercions can raise (see C3), so the build is fallible; the
proficiency coercion is evaluated first, as in the source argument order. -/
def buildResource (fb : PyStr → Option PDate) (cols : List PyStr)
    (resolved : List (PyStr × PyStr)) (cid uid : PyStr) (row : Row) :
    Except PyStr ResourceRec :=
  match _enum_or_none proficiencyEnum
      (rowGetD cols row (alookup resolved (S "proficiency_level")) RawCell.pynone) with
  | Except.error e => Except.error e
  | Except.ok prof =>
    match _enum_or_none employmentEnum
        (rowGetD cols row (alookup resolved (S "employment_type")) RawCell.pynone) with
    | Except.error e => Except.error e
    | Except.ok emp =>
      Except.ok
        { resource_id := pyStrip (pyStrOfCell
            (rowGetD cols row (alookup resolved (S "resource_id")) RawCell.pynone)),
          name := pyStrip (pyStrOfCell
            (rowGetD cols row (alookup resolved (S "name")) (RawCell.str []))),
          role := pyStrip (pyStrOfCell
            (rowGetD cols row (alookup resolved (S "role")) (RawCell.str []))),
          skills := _split_list (rowGetD cols row (alookup resolved (S "skills")) RawCell.pynone),
          proficiency_level := prof,
          capacity_hrs_per_week := _parse_int
            (rowGetD cols row (alookup resolved (S "capacity_hrs_per_week")) RawCell.pynone),
          current_commitments := strOrNone (pyStrip (pyStrOfCell
            (rowGetD cols row (alookup resolved (S "current_commitments")) (RawCell.str [])))),
          availability_date := _to_date fb
            (rowGetD cols row (alookup resolved (S "availability_date")) RawCell.pynone),
          location_timezone := strOrNone (pyStrip (pyStrOfCell
            (rowGetD cols row (alookup resolved (S "location_timezone")) (RawCell.str [])))),
          employment_type := emp,
          cost_per_hour_inr := _parse_float
            (rowGetD cols row (alookup resolved (S "cost_per_hour_inr")) RawCell.pynone),
          conversation_id := cid,
          user_id := uid }

/-- The resources table, an association list keyed by the primary key. -/
abbrev DB := List (PyStr × ResourceRec)

/-- Upsert by primary key: overwrite in place when the key exists, otherwise
append, the observable behaviour of the session merge plus flush. -/
def upsert : DB → PyStr → ResourceRec → DB
  | [], k, v => [(k, v)]
  | (k0, v0) :: t, k, v => if k0 == k then (k, v) :: t else (k0, v0) :: upsert t k v

/-- One recorded sample error of the ingestion loop. -/
structure RowError where
  row_index : Nat
  error : PyStr
deriving DecidableEq

/-- Mutable state of the ingestion loop. -/
structure LoopState where
  okCount : Nat
  failedCount : Nat
  errors : List RowError
  db : DB

/-- The sample error cap of app/routes_data.py. -/
def ROW_ERROR_LIMIT : Nat := 10

/-- Failure bookkeeping of the ingestion loop: count the failure and record a
sample error while fewer than the cap have been recorded. -/
def markFailed (st : LoopState) (idx : Nat) (e : PyStr) : LoopState :=
  { st with
      failedCount := st.failedCount + 1,
      errors := if st.errors.length < ROW_ERROR_LIMIT then st.errors ++ [⟨idx, e⟩] else st.errors }

/-- One iteration of the resource ingestion loop: build the record, attempt
the upsert and flush, swallow a failure and continue. The flush outcome is an
oracle on the built record, standing for the external database constraints;
it is deterministic in the record, as constraint violations are. -/
def ingestStep (fail : ResourceRec → Option PyStr) (fb : PyStr → Option PDate)
    (cols : List PyStr) (resolved : List (PyStr × PyStr)) (cid uid : PyStr)
    (st : LoopState) (p : Nat × Row) : LoopState :=
  match buildResource fb cols resolved cid uid p.2 with
  | Except.error e => markFailed st p.1 e
  | Except.ok r =>
    match fail r with
    | some e => markFailed st p.1 e
    | none => { st with okCount := st.okCount + 1, db := upsert st.db r.resource_id r }

/-- The whole ingestion loop over the enumerated rows. -/
def runRows (fail : ResourceRec → Option PyStr) (fb : PyStr → Option PDate)
    (cols : List PyStr) (resolved : List (PyStr × PyStr)) (cid uid : PyStr)
    (db0 : DB) (rows : List Row) : LoopState :=
  rows.enum.foldl (ingestStep fail fb cols resolved cid uid) ⟨0, 0, [], db0⟩

/-- Whether one row fails, either at record construction or at flush. -/
def rowFails (fail : ResourceRec → Option PyStr) (fb : PyStr → Option PDate)
    (cols : List PyStr) (resolved : List (PyStr × PyStr)) (cid uid : PyStr)
    (row : Row) : Bool :=
  match buildResource fb cols resolved cid uid row with
  | Except.error _ => true
  | Except.ok r => (fail r).isSome

/-- Error detail payload of the 422 missing-required-columns response. -/
structure ErrDetail where
  required_missing : List PyStr
  columns_seen : List PyStr
  resolved : List (PyStr × PyStr)
deriving DecidableEq

/-- The three response shapes of the resource upload endpoint: the 422 error,
the empty-file short circuit, and the full success body. -/
inductive UploadResult
  | err422 (detail : ErrDetail)
  | okEmpty
  | okFull (rows_ingested rows_failed : Nat) (columns_seen : List PyStr)
      (resolved_map : List (PyStr × PyStr)) (sample_errors : List RowError)
deriving DecidableEq

/-- The JSON keys present in each response shape, copied from the three dict
literals of the endpoint. -/
def UploadResult.keys : UploadResult → List String
  | UploadResult.err422 _ => ["error", "required_missing", "columns_seen", "resolved"]
  | UploadResult.okEmpty => ["ok", "rows_ingested", "rows_failed", "note", "columns_seen"]
  | UploadResult.okFull _ _ _ _ _ =>
      ["ok", "rows_ingested", "rows_failed", "columns_seen", "resolved_map", "sample_errors"]

/-- Embedding of the resource upload endpoint after file parsing: the
dataframe is its header list and rows, emptiness of either short-circuits;
otherwise normalise headers, resolve columns, abort on missing required
fields, or run the ingestion loop and answer with the full body. The final
commit is modelled as succeeding; a commit failure discards the batch and
propagates, which no claim settled here exercises. -/
def upload_resources (fail : ResourceRec → Option PyStr) (fb : PyStr → Option PDate)
    (rawHeaders : List PyStr) (rows : List Row) (cid uid : PyStr) (db0 : DB) :
    UploadResult × DB :=
  if rows.isEmpty || rawHeaders.isEmpty then (UploadResult.okEmpty, db0)
  else if (requiredMissing resourceRequired
      (_resolve_columns _RES_MAPPING (rawHeaders.map _norm_header))).isEmpty then
    (UploadResult.okFull
      (runRows fail fb (rawHeaders.map _norm_header)
        (_resolve_columns _RES_MAPPING (rawHeaders.map _norm_header)) cid uid db0 rows).okCount
      (runRows fail fb (rawHeaders.map _norm_header)
        (_resolve_columns _RES_MAPPING (rawHeaders.map _norm_header)) cid uid db0 rows).failedCount
      (rawHeaders.map _norm_header)
      (_resolve_columns _RES_MAPPING (rawHeaders.map _norm_header))
      (runRows fail fb (rawHeaders.map _norm_header)
        (_resolve_columns _RES_MAPPING (rawHeaders.map _norm_header)) cid uid db0 rows).errors,
     (runRows fail fb (rawHeaders.map _norm_header)
       (_resolve_columns _RES_MAPPING (rawHeaders.map _norm_header)) cid uid db0 rows).db)
  else
    (UploadResult.err422
      ⟨requiredMissing resourceRequired
          (_resolve_columns _RES_MAPPING (rawHeaders.map _norm_header)),
        rawHeaders.map _norm_header,
        _resolve_columns _RES_MAPPING (rawHeaders.map _norm_header)⟩,
     db0)

/-- The failure counter after the loop is the initial counter plus the number
of failing rows. -/
theorem foldl_ingest_failed (fail : ResourceRec → Option PyStr) (fb : PyStr → Option PDate)
    (cols : List PyStr) (resolved : List (PyStr × PyStr)) (cid uid : PyStr)
    (l : List (Nat × Row)) :
    ∀ st : LoopState,
      (l.foldl (ingestStep fail fb cols resolved cid uid) st).failedCount =
        st.failedCount + l.countP (fun p => rowFails fail fb cols resolved cid uid p.2) := by
  induction l with
  | nil => intro st; simp
  | cons p t ih =>
    intro st
    rw [List.foldl_cons, ih, List.countP_cons]
    unfold rowFails ingestStep
    cases hb : buildResource fb cols resolved cid uid p.2 with
    | error e =>
      simp [markFailed]
      omega
    | ok r =>
      cases hfail : fail r with
      | some e =>
        simp [markFailed, hfail]
        omega
      | none => simp [hfail]

/-- The counter over the enumerated rows equals the counter over the rows. -/
theorem countP_enumFrom {α : Type} (q : α → Bool) (l : List α) :
    ∀ n, (List.enumFrom n l).countP (fun p => q p.2) = l.countP q := by
  induction l with
  | nil => intro n; rfl
  | cons a t ih =>
    intro n
    simp only [List.enumFrom, List.countP_cons, ih]

/-- Failure bookkeeping never pushes the sample list beyond the cap. -/
theorem markFailed_errors_le {st : LoopState} (idx : Nat) (e : PyStr)
    (h : st.errors.length ≤ ROW_ERROR_LIMIT) :
    (markFailed st idx e).errors.length ≤ ROW_ERROR_LIMIT := by
  unfold markFailed
  by_cases hlt : st.errors.length < ROW_ERROR_LIMIT
  · simp only [if_pos hlt, List.length_append, List.length_cons, List.length_nil]
    omega
  · simp only [if_neg hlt]
    exact h

/-- One loop iteration preserves the sample cap. -/
theorem ingestStep_errors_le (fail : ResourceRec → Option PyStr) (fb : PyStr → Option PDate)
    (cols : List PyStr) (resolved : List (PyStr × PyStr)) (cid uid : PyStr)
    (st : LoopState) (p : Nat × Row) (h : st.errors.length ≤ ROW_ERROR_LIMIT) :
    (ingestStep fail fb cols resolved cid uid st p).errors.length ≤ ROW_ERROR_LIMIT := by
  unfold ingestStep
  split
  · exact markFailed_errors_le _ _ h
  · split
    · exact markFailed_errors_le _ _ h
    · simpa using h

/-- The whole loop preserves the sample cap. -/
theorem foldl_ingest_errors_le (fail : ResourceRec → Option PyStr) (fb : PyStr → Option PDate)
    (cols : List PyStr) (resolved : List (PyStr × PyStr)) (cid uid : PyStr)
    (l : List (Nat × Row)) :
    ∀ st : LoopState, st.errors.length ≤ ROW_ERROR_LIMIT →
      (l.foldl (ingestStep fail fb cols resolved cid uid) st).errors.length ≤ ROW_ERROR_LIMIT := by
  induction l with
  | nil => intro st h; simpa using h
  | cons p t ih =>
    intro st h
    rw [List.foldl_cons]
    exact ih _ (ingestStep_errors_le fail fb cols resolved cid uid st p h)

/-- The loop failure counter counts exactly the failing rows. -/
theorem runRows_failedCount (fail : ResourceRec → Option PyStr) (fb : PyStr → Option PDate)
    (cols : List PyStr) (resolved : List (PyStr × PyStr)) (cid uid : PyStr)
    (db0 : DB) (rows : List Row) :
    (runRows fail fb cols resolved cid uid db0 rows).failedCount =
      rows.countP (rowFails fail fb cols resolved cid uid) := by
  unfold runRows List.enum
  rw [foldl_ingest_failed]
  rw [countP_enumFrom (rowFails fail fb cols resolved cid uid) rows 0]
  simp

/-- The loop records at most the cap of sample errors. -/
theorem runRows_errors_le (fail : ResourceRec → Option PyStr) (fb : PyStr → Option PDate)
    (cols : List PyStr) (resolved : List (PyStr × PyStr)) (cid uid : PyStr)
    (db0 : DB) (rows : List Row) :
    (runRows fail fb cols resolved cid uid db0 rows).errors.length ≤ ROW_ERROR_LIMIT :=
  foldl_ingest_errors_le fail fb cols resolved cid uid rows.enum ⟨0, 0, [], db0⟩ (by simp)

/-- Branch characterisation of the endpoint on a nonempty table whose required
fields all resolve. -/
theorem upload_resources_eq_okFull (fail : ResourceRec → Option PyStr)
    (fb : PyStr → Option PDate) (rawHeaders : List PyStr) (rows : List Row)
    (cid uid : PyStr) (db0 : DB)
    (h1 : rows.isEmpty = false) (h2 : rawHeaders.isEmpty = false)
    (h3 : (requiredMissing resourceRequired
      (_resolve_columns _RES_MAPPING (rawHeaders.map _norm_header))).isEmpty = true) :
    upload_resources fail fb rawHeaders rows cid uid db0 =
      (UploadResult.okFull
        (runRows fail fb (rawHeaders.map _norm_header)
          (_resolve_columns _RES_MAPPING (rawHeaders.map _norm_header)) cid uid db0 rows).okCount
        (runRows fail fb (rawHeaders.map _norm_header)
          (_resolve_columns _RES_MAPPING (rawHeaders.map _norm_header)) cid uid db0 rows).failedCount
        (rawHeaders.map _norm_header)
        (_resolve_columns _RES_MAPPING (rawHeaders.map _norm_header))
        (runRows fail fb (rawHeaders.map _norm_header)
          (_resolve_columns _RES_MAPPING (rawHeaders.map _norm_header)) cid uid db0 rows).errors,
       (runRows fail fb (rawHeaders.map _norm_header)
         (_resolve_columns _RES_MAPPING (rawHeaders.map _norm_header)) cid uid db0 rows).db) := by
  unfold upload_resources
  rw [h1, h2, h3]
  rfl

/-- C5 counterexample: the empty-file short circuit answers with a body whose
keys omit the resolved column map and the sample errors list, so the response
does not contain all five advertised fields in that case. -/
theorem C5_counterexample :
    (upload_resources (fun _ => none) (fun _ => none) [] [] (S "c1") (S "u1") []).1 =
        UploadResult.okEmpty ∧
    ¬ ("resolved_map" ∈ UploadResult.okEmpty.keys) ∧
    ¬ ("sample_errors" ∈ UploadResult.okEmpty.keys) :=
  ⟨rfl, by decide, by decide⟩

/-- C5 amended: on every upload that reaches the ingestion loop, meaning a
nonempty table whose required fields all resolve, the response carries all
five fields, the sample errors list has at most ten entries, and the failure
counter counts every failing row; the empty-file short circuit instead
reports the counters and an empty column list but omits the resolved map and
the sample errors. -/
theorem C5_success_response_shape (fail : ResourceRec → Option PyStr)
    (fb : PyStr → Option PDate) (rawHeaders : List PyStr) (rows : List Row)
    (cid uid : PyStr) (db0 : DB)
    (hrows : rows ≠ []) (hhdr : rawHeaders ≠ [])
    (hreq : requiredMissing resourceRequired
      (_resolve_columns _RES_MAPPING (rawHeaders.map _norm_header)) = []) :
    ∃ okc errs,
      (upload_resources fail fb rawHeaders rows cid uid db0).1 =
        UploadResult.okFull okc
          (rows.countP (rowFails fail fb (rawHeaders.map _norm_header)
            (_resolve_columns _RES_MAPPING (rawHeaders.map _norm_header)) cid uid))
          (rawHeaders.map _norm_header)
          (_resolve_columns _RES_MAPPING (rawHeaders.map _norm_header)) errs ∧
      errs.length ≤ ROW_ERROR_LIMIT ∧
      (upload_resources fail fb rawHeaders rows cid uid db0).1.keys =
        ["ok", "rows_ingested", "rows_failed", "columns_seen", "resolved_map",
          "sample_errors"] := by
  have h1 : rows.isEmpty = false := by
    cases rows with
    | nil => exact absurd rfl hrows
    | cons a t => rfl
  have h2 : rawHeaders.isEmpty = false := by
    cases rawHeaders with
    | nil => exact absurd rfl hhdr
    | cons a t => rfl
  have h3 : (requiredMissing resourceRequired
      (_resolve_columns _RES_MAPPING (rawHeaders.map _norm_header))).isEmpty = true := by
    rw [hreq]
    rfl
  have hc := upload_resources_eq_okFull fail fb rawHeaders rows cid uid db0 h1 h2 h3
  refine ⟨(runRows fail fb (rawHeaders.map _norm_header)
      (_resolve_columns _RES_MAPPING (rawHeaders.map _norm_header)) cid uid db0 rows).okCount,
    (runRows fail fb (rawHeaders.map _norm_header)
      (_resolve_columns _RES_MAPPING (rawHeaders.map _norm_header)) cid uid db0 rows).errors,
    ?_, runRows_errors_le fail fb _ _ cid uid db0 rows, ?_⟩
  · rw [show (upload_resources fail fb rawHeaders rows cid uid db0).1 =
        (upload_resources fail fb rawHeaders rows cid uid db0).fst from rfl, hc,
      runRows_failedCount]
  · rw [show (upload_resources fail fb rawHeaders rows cid uid db0).1 =
        (upload_resources fail fb rawHeaders rows cid uid db0).fst from rfl, hc]
    rfl

/-- Witness for the amended C5 at a one-row table with already canonical
headers. -/
theorem C5_success_response_shape_witness :
    ([[RawCell.str (S "r1"), RawCell.str (S "Ann"), RawCell.str (S "Dev"),
        RawCell.str (S "Py; Go")]] ≠ ([] : List Row)) ∧
    ([S "resource_id", S "name", S "role", S "skills"] ≠ ([] : List PyStr)) ∧
    requiredMissing resourceRequired (_resolve_columns _RES_MAPPING
      ([S "resource_id", S "name", S "role", S "skills"].map _norm_header)) = [] ∧
    (∃ okc errs,
      (upload_resources (fun _ => none) (fun _ => none)
        [S "resource_id", S "name", S "role", S "skills"]
        [[RawCell.str (S "r1"), RawCell.str (S "Ann"), RawCell.str (S "Dev"),
          RawCell.str (S "Py; Go")]] (S "c1") (S "u1") []).1 =
        UploadResult.okFull okc
          ([[RawCell.str (S "r1"), RawCell.str (S "Ann"), RawCell.str (S "Dev"),
            RawCell.str (S "Py; Go")]].countP
            (rowFails (fun _ => none) (fun _ => none)
              ([S "resource_id", S "name", S "role", S "skills"].map _norm_header)
              (_resolve_columns _RES_MAPPING
                ([S "resource_id", S "name", S "role", S "skills"].map _norm_header))
              (S "c1") (S "u1")))
          ([S "resource_id", S "name", S "role", S "skills"].map _norm_header)
          (_resolve_columns _RES_MAPPING
            ([S "resource_id", S "name", S "role", S "skills"].map _norm_header)) errs ∧
      errs.length ≤ ROW_ERROR_LIMIT ∧
      (upload_resources (fun _ => none) (fun _ => none)
        [S "resource_id", S "name", S "role", S "skills"]
        [[RawCell.str (S "r1"), RawCell.str (S "Ann"), RawCell.str (S "Dev"),
          RawCell.str (S "Py; Go")]] (S "c1") (S "u1") []).1.keys =
        ["ok", "rows_ingested", "rows_failed", "columns_seen", "resolved_map",
          "sample_errors"]) :=
  ⟨by decide, by decide, by decide,
    C5_success_response_shape (fun _ => none) (fun _ => none)
      [S "resource_id", S "name", S "role", S "skills"]
      [[RawCell.str (S "r1"), RawCell.str (S "Ann"), RawCell.str (S "Dev"),
        RawCell.str (S "Py; Go")]] (S "c1") (S "u1") []
      (by decide) (by decide) (by decide)⟩

/-- Keys of the association-list table. -/
def akeys (l : DB) : List PyStr := l.map Prod.fst

/-- The key and record a row contributes to the store, or none when the row
fails at construction or at flush. -/
def toKV (fail : ResourceRec → Option PyStr) (fb : PyStr → Option PDate)
    (cols : List PyStr) (resolved : List (PyStr × PyStr)) (cid uid : PyStr)
    (row : Row) : Option (PyStr × ResourceRec) :=
  match buildResource fb cols resolved cid uid row with
  | Except.error _ => none
  | Except.ok r => if (fail r).isSome then none else some (r.resource_id, r)

/-- Replay a list of key and record pairs onto a table by upsert. -/
def foldlUpsert (d : DB) (kvs : List (PyStr × ResourceRec)) : DB :=
  kvs.foldl (fun acc p => upsert acc p.1 p.2) d

/-- The successful upserts of the ingestion loop, in row order. -/
def ingestKVs (fail : ResourceRec → Option PyStr) (fb : PyStr → Option PDate)
    (cols : List PyStr) (resolved : List (PyStr × PyStr)) (cid uid : PyStr)
    (rows : List Row) : List (PyStr × ResourceRec) :=
  rows.filterMap (toKV fail fb cols resolved cid uid)

/-- Lookup on a cons cell. -/
theorem alookup_cons (p : PyStr × ResourceRec) (t : DB) (k : PyStr) :
    alookup (p :: t) k = if (p.1 == k) = true then some p.2 else alookup t k := by
  by_cases h : (p.1 == k) = true
  · simp [alookup, List.find?_cons, h]
  · simp [alookup, List.find?_cons, h]

/-- The table produced by the loop is the initial table with the successful
upserts replayed in order. -/
theorem foldl_ingest_db (fail : ResourceRec → Option PyStr) (fb : PyStr → Option PDate)
    (cols : List PyStr) (resolved : List (PyStr × PyStr)) (cid uid : PyStr)
    (l : List (Nat × Row)) :
    ∀ st : LoopState,
      (l.foldl (ingestStep fail fb cols resolved cid uid) st).db =
        foldlUpsert st.db ((l.map Prod.snd).filterMap (toKV fail fb cols resolved cid uid)) := by
  induction l with
  | nil => intro st; rfl
  | cons p t ih =>
    intro st
    rw [List.foldl_cons, ih]
    simp only [List.map_cons, List.filterMap_cons]
    unfold ingestStep
    cases hb : buildResource fb cols resolved cid uid p.2 with
    | error e => simp [toKV, hb, markFailed]
    | ok r =>
      cases hfail : fail r with
      | some e => simp [toKV, hb, hfail, markFailed]
      | none => simp [toKV, hb, hfail, foldlUpsert]

/-- The loop database as a replay of the successful upserts. -/
theorem runRows_db (fail : ResourceRec → Option PyStr) (fb : PyStr → Option PDate)
    (cols : List PyStr) (resolved : List (PyStr × PyStr)) (cid uid : PyStr)
    (db0 : DB) (rows : List Row) :
    (runRows fail fb cols resolved cid uid db0 rows).db =
      foldlUpsert db0 (ingestKVs fail fb cols resolved cid uid rows) := by
  unfold runRows ingestKVs
  rw [foldl_ingest_db]
  rw [List.enum_map_snd]

/-- Lookup after an upsert. -/
theorem alookup_upsert (l : DB) (k : PyStr) (v : ResourceRec) (k1 : PyStr) :
    alookup (upsert l k v) k1 = if k1 = k then some v else alookup l k1 := by
  induction l with
  | nil =>
    by_cases h : k1 = k
    · simp [upsert, alookup, List.find?_cons, h]
    · have hne : (k == k1) = false := by
        rw [beq_eq_false_iff_ne]
        exact fun e => h e.symm
      simp [upsert, alookup, List.find?_cons, hne, h]
  | cons p t ih =>
    by_cases h0 : (p.1 == k) = true
    · have he : p.1 = k := eq_of_beq h0
      rw [show upsert (p :: t) k v = (k, v) :: t from by simp [upsert, h0]]
      by_cases h1 : k1 = k
      · rw [alookup_cons, alookup_cons]
        simp [h1, he]
      · have hkk1 : (k == k1) = false := by
          rw [beq_eq_false_iff_ne]
          exact fun e => h1 e.symm
        rw [alookup_cons, alookup_cons]
        simp [hkk1, he, h1]
    · rw [show upsert (p :: t) k v = p :: upsert t k v from by simp [upsert, h0]]
      rw [alookup_cons, alookup_cons, ih]
      by_cases h01 : (p.1 == k1) = true
      · have : p.1 = k1 := eq_of_beq h01
        have hne : ¬ k1 = k := by
          intro e
          rw [e] at this
          rw [this] at h0
          simp at h0
        simp [h01, hne]
      · simp [h01]

/-- A key absent from the key list looks up to nothing, and conversely. -/
theorem alookup_eq_none_iff (l : DB) (k : PyStr) :
    alookup l k = none ↔ ¬ k ∈ akeys l := by
  induction l with
  | nil => simp [alookup, akeys]
  | cons p t ih =>
    rw [alookup_cons]
    have hcons : akeys (p :: t) = p.1 :: akeys t := rfl
    rw [hcons]
    by_cases h : (p.1 == k) = true
    · have he : p.1 = k := eq_of_beq h
      rw [if_pos h]
      apply iff_of_false
      · simp
      · intro hni
        exact hni (by rw [← he]; exact List.mem_cons_self _ _)
    · rw [if_neg h, ih]
      have hne : p.1 ≠ k := by
        intro e
        rw [e] at h
        simp at h
      constructor
      · intro hm hmem
        rcases List.mem_cons.mp hmem with he2 | hm2
        · exact hne he2.symm
        · exact hm hm2
      · intro hm hmem
        exact hm (List.mem_cons_of_mem _ hmem)

/-- Keys after an upsert: unchanged when the key is present, appended
otherwise. -/
theorem akeys_upsert (l : DB) (k : PyStr) (v : ResourceRec) :
    akeys (upsert l k v) = if k ∈ akeys l then akeys l else akeys l ++ [k] := by
  induction l with
  | nil => simp [upsert, akeys]
  | cons p t ih =>
    by_cases h0 : (p.1 == k) = true
    · have he : p.1 = k := eq_of_beq h0
      rw [show upsert (p :: t) k v = (k, v) :: t from by simp [upsert, h0]]
      have e1 : akeys ((k, v) :: t) = k :: akeys t := rfl
      have e2 : akeys (p :: t) = p.1 :: akeys t := rfl
      rw [e1, e2, he, if_pos (List.mem_cons_self k (akeys t))]
    · have hne : p.1 ≠ k := by
        intro e
        rw [e] at h0
        simp at h0
      rw [show upsert (p :: t) k v = p :: upsert t k v from by simp [upsert, h0]]
      have e2 : akeys (p :: t) = p.1 :: akeys t := rfl
      have e3 : akeys (p :: upsert t k v) = p.1 :: akeys (upsert t k v) := rfl
      rw [e2, e3, ih]
      by_cases hm : k ∈ akeys t
      · rw [if_pos hm, if_pos (List.mem_cons_of_mem p.1 hm)]
      · have hnm : ¬ k ∈ p.1 :: akeys t := by
          intro hmem
          rcases List.mem_cons.mp hmem with he2 | hm2
          · exact hne he2.symm
          · exact hm hm2
        rw [if_neg hm, if_neg hnm]
        rfl

/-- Upsert preserves distinctness of the key list. -/
theorem akeys_nodup_upsert (l : DB) (k : PyStr) (v : ResourceRec)
    (h : (akeys l).Nodup) : (akeys (upsert l k v)).Nodup := by
  rw [akeys_upsert]
  by_cases hm : k ∈ akeys l
  · rw [if_pos hm]
    exact h
  · rw [if_neg hm, List.nodup_append]
    refine ⟨h, List.nodup_singleton k, ?_⟩
    intro a ha hak
    rw [List.mem_singleton] at hak
    rw [hak] at ha
    exact hm ha

/-- Lookup within an appended table. -/
theorem alookup_append (l1 l2 : DB) (k : PyStr) :
    alookup (l1 ++ l2) k =
      match alookup l1 k with
      | some v => some v
      | none => alookup l2 k := by
  unfold alookup
  rw [List.find?_append]
  cases List.find? (fun p => p.1 == k) l1 with
  | none => simp [Option.or]
  | some p => simp [Option.or]

/-- Lookup after replaying upserts: the last write to the key wins, otherwise
the original table answers. -/
theorem alookup_foldlUpsert (kvs : List (PyStr × ResourceRec)) :
    ∀ (d : DB) (k : PyStr),
      alookup (foldlUpsert d kvs) k =
        match alookup kvs.reverse k with
        | some v => some v
        | none => alookup d k := by
  induction kvs with
  | nil => intro d k; rfl
  | cons p t ih =>
    intro d k
    rw [show foldlUpsert d (p :: t) = foldlUpsert (upsert d p.1 p.2) t from rfl, ih]
    rw [List.reverse_cons, alookup_append]
    cases alookup t.reverse k with
    | some v => rfl
    | none =>
      rw [alookup_upsert, alookup_cons]
      by_cases h : k = p.1
      · have : (p.1 == k) = true := beq_iff_eq.mpr h.symm
        simp [h, this]
      · have : (p.1 == k) = false := by
          rw [beq_eq_false_iff_ne]
          exact fun e => h e.symm
        simp [h, this, alookup]

/-- Replaying upserts whose keys are all present leaves the key list alone. -/
theorem akeys_foldlUpsert_of_mem (kvs : List (PyStr × ResourceRec)) :
    ∀ d : DB, (∀ p ∈ kvs, p.1 ∈ akeys d) → akeys (foldlUpsert d kvs) = akeys d := by
  induction kvs with
  | nil => intro d _; rfl
  | cons p t ih =>
    intro d h
    rw [show foldlUpsert d (p :: t) = foldlUpsert (upsert d p.1 p.2) t from rfl]
    have h0 : p.1 ∈ akeys d := h p (List.mem_cons_self p t)
    have e : akeys (upsert d p.1 p.2) = akeys d := by
      rw [akeys_upsert, if_pos h0]
    rw [ih (upsert d p.1 p.2) (fun q hq => by
      rw [e]
      exact h q (List.mem_cons_of_mem p hq)), e]

/-- Replaying upserts preserves distinctness of the key list. -/
theorem akeys_nodup_foldlUpsert (kvs : List (PyStr × ResourceRec)) :
    ∀ d : DB, (akeys d).Nodup → (akeys (foldlUpsert d kvs)).Nodup := by
  induction kvs with
  | nil => intro d h; exact h
  | cons p t ih =>
    intro d h
    exact ih (upsert d p.1 p.2) (akeys_nodup_upsert d p.1 p.2 h)

/-- Every key written by the replay is present afterwards. -/
theorem mem_akeys_foldlUpsert (kvs : List (PyStr × ResourceRec)) (d : DB)
    (p : PyStr × ResourceRec) (hp : p ∈ kvs) : p.1 ∈ akeys (foldlUpsert d kvs) := by
  have h2 := alookup_foldlUpsert kvs d p.1
  cases hv : alookup kvs.reverse p.1 with
  | none =>
    exfalso
    rw [alookup_eq_none_iff] at hv
    apply hv
    unfold akeys
    rw [List.mem_map]
    exact ⟨p, List.mem_reverse.mpr hp, rfl⟩
  | some v =>
    rw [hv] at h2
    by_contra hnot
    rw [← alookup_eq_none_iff] at hnot
    rw [h2] at hnot
    exact absurd hnot (by simp)

/-- Tables with distinct keys, the same key list and the same lookups are
equal. -/
theorem alist_ext : ∀ (l1 l2 : DB), (akeys l1).Nodup → akeys l1 = akeys l2 →
    (∀ k, alookup l1 k = alookup l2 k) → l1 = l2
  | [], l2, _, hk, _ => by
    have h0 : akeys l2 = [] := hk.symm
    unfold akeys at h0
    exact (List.map_eq_nil_iff.mp h0).symm
  | p :: t1, l2, hnd, hk, hl => by
    cases l2 with
    | nil =>
      have hx : akeys (p :: t1) = [] := hk
      exact absurd hx (by simp [akeys])
    | cons q t2 =>
      have hk1 : p.1 :: akeys t1 = q.1 :: akeys t2 := hk
      have hfst : p.1 = q.1 := ((List.cons.injEq _ _ _ _).mp hk1).1
      have hktl : akeys t1 = akeys t2 := ((List.cons.injEq _ _ _ _).mp hk1).2
      have hself : (p.1 == p.1) = true := beq_self_eq_true p.1
      have hq : (q.1 == p.1) = true := by
        rw [← hfst]
        exact hself
      have hsnd : p.2 = q.2 := by
        have hx := hl p.1
        rw [alookup_cons, alookup_cons, if_pos hself, if_pos hq] at hx
        exact Option.some.inj hx
      have hndc : (p.1 :: akeys t1).Nodup := hnd
      have hheadnot : ¬ p.1 ∈ akeys t1 := (List.nodup_cons.mp hndc).1
      have hndtl : (akeys t1).Nodup := (List.nodup_cons.mp hndc).2
      have htl : t1 = t2 := by
        apply alist_ext t1 t2 hndtl hktl
        intro k
        by_cases hkp : (p.1 == k) = true
        · have hke : p.1 = k := eq_of_beq hkp
          have e1 : alookup t1 k = none := by
            rw [alookup_eq_none_iff, ← hke]
            exact hheadnot
          have e2 : alookup t2 k = none := by
            rw [alookup_eq_none_iff, ← hktl, ← hke]
            exact hheadnot
          rw [e1, e2]
        · have hqp : ¬ (q.1 == k) = true := by
            rw [← hfst]
            exact hkp
          have hx := hl k
          rw [alookup_cons, alookup_cons, if_neg hkp, if_neg hqp] at hx
          exact hx
      rw [htl]
      have hpq : p = q := Prod.ext hfst hsnd
      rw [hpq]

/-- Whether an upload response is a success reporting no failed rows. -/
def succeedsNoFail : UploadResult → Bool
  | UploadResult.err422 _ => false
  | UploadResult.okEmpty => true
  | UploadResult.okFull _ f _ _ _ => f == 0

/-- C8: ingestion is idempotent. When a first upload of a file into a scope
succeeds with no failed rows, uploading the same file into the same scope a
second time reports no failed rows again and leaves the stored table exactly
as the first run left it, because every row rewrites its primary key with the
same deterministic record. The table starts with distinct primary keys, the
invariant the store enforces. -/
theorem C8_ingestion_idempotent (fail : ResourceRec → Option PyStr)
    (fb : PyStr → Option PDate) (rawHeaders : List PyStr) (rows : List Row)
    (cid uid : PyStr) (db0 : DB)
    (hnodup : (akeys db0).Nodup)
    (h1 : succeedsNoFail (upload_resources fail fb rawHeaders rows cid uid db0).1 = true) :
    succeedsNoFail (upload_resources fail fb rawHeaders rows cid uid
        (upload_resources fail fb rawHeaders rows cid uid db0).2).1 = true ∧
    (upload_resources fail fb rawHeaders rows cid uid
        (upload_resources fail fb rawHeaders rows cid uid db0).2).2 =
      (upload_resources fail fb rawHeaders rows cid uid db0).2 := by
  by_cases hempty : (rows.isEmpty || rawHeaders.isEmpty) = true
  · have e1 : upload_resources fail fb rawHeaders rows cid uid db0 =
        (UploadResult.okEmpty, db0) := by
      unfold upload_resources
      rw [if_pos hempty]
    simp [e1, succeedsNoFail]
  · by_cases hmiss : (requiredMissing resourceRequired
        (_resolve_columns _RES_MAPPING (rawHeaders.map _norm_header))).isEmpty = true
    · have hre : rows.isEmpty = false := by
        cases hx : rows.isEmpty with
        | false => rfl
        | true =>
          exfalso
          apply hempty
          rw [hx]
          rfl
      have hhe : rawHeaders.isEmpty = false := by
        cases hx : rawHeaders.isEmpty with
        | false => rfl
        | true =>
          exfalso
          apply hempty
          rw [hx, Bool.or_true]
      have hc1 := upload_resources_eq_okFull fail fb rawHeaders rows cid uid db0 hre hhe hmiss
      have hdb1 : (upload_resources fail fb rawHeaders rows cid uid db0).2 =
          (runRows fail fb (rawHeaders.map _norm_header)
            (_resolve_columns _RES_MAPPING (rawHeaders.map _norm_header))
            cid uid db0 rows).db := by
        rw [hc1]
      have hc2 := upload_resources_eq_okFull fail fb rawHeaders rows cid uid
        (runRows fail fb (rawHeaders.map _norm_header)
          (_resolve_columns _RES_MAPPING (rawHeaders.map _norm_header))
          cid uid db0 rows).db hre hhe hmiss
      have hres2 : upload_resources fail fb rawHeaders rows cid uid
          (upload_resources fail fb rawHeaders rows cid uid db0).2 =
          (UploadResult.okFull
            (runRows fail fb (rawHeaders.map _norm_header)
              (_resolve_columns _RES_MAPPING (rawHeaders.map _norm_header)) cid uid
              (runRows fail fb (rawHeaders.map _norm_header)
                (_resolve_columns _RES_MAPPING (rawHeaders.map _norm_header))
                cid uid db0 rows).db rows).okCount
            (runRows fail fb (rawHeaders.map _norm_header)
              (_resolve_columns _RES_MAPPING (rawHeaders.map _norm_header)) cid uid
              (runRows fail fb (rawHeaders.map _norm_header)
                (_resolve_columns _RES_MAPPING (rawHeaders.map _norm_header))
                cid uid db0 rows).db rows).failedCount
            (rawHeaders.map _norm_header)
            (_resolve_columns _RES_MAPPING (rawHeaders.map _norm_header))
            (runRows fail fb (rawHeaders.map _norm_header)
              (_resolve_columns _RES_MAPPING (rawHeaders.map _norm_header)) cid uid
              (runRows fail fb (rawHeaders.map _norm_header)
                (_resolve_columns _RES_MAPPING (rawHeaders.map _norm_header))
                cid uid db0 rows).db rows).errors,
           (runRows fail fb (rawHeaders.map _norm_header)
              (_resolve_columns _RES_MAPPING (rawHeaders.map _norm_header)) cid uid
              (runRows fail fb (rawHeaders.map _norm_header)
                (_resolve_columns _RES_MAPPING (rawHeaders.map _norm_header))
                cid uid db0 rows).db rows).db) := by
        rw [hdb1]
        exact hc2
      have hcount : (runRows fail fb (rawHeaders.map _norm_header)
          (_resolve_columns _RES_MAPPING (rawHeaders.map _norm_header))
          cid uid db0 rows).failedCount = 0 := by
        rw [hc1] at h1
        simpa [succeedsNoFail] using h1
      constructor
      · rw [hres2]
        show ((runRows fail fb (rawHeaders.map _norm_header)
            (_resolve_columns _RES_MAPPING (rawHeaders.map _norm_header)) cid uid
            (runRows fail fb (rawHeaders.map _norm_header)
              (_resolve_columns _RES_MAPPING (rawHeaders.map _norm_header))
              cid uid db0 rows).db rows).failedCount == 0) = true
        rw [runRows_failedCount]
        rw [runRows_failedCount] at hcount
        rw [hcount]
        rfl
      · rw [hres2, hdb1]
        show (runRows fail fb (rawHeaders.map _norm_header)
            (_resolve_columns _RES_MAPPING (rawHeaders.map _norm_header)) cid uid
            (runRows fail fb (rawHeaders.map _norm_header)
              (_resolve_columns _RES_MAPPING (rawHeaders.map _norm_header))
              cid uid db0 rows).db rows).db =
          (runRows fail fb (rawHeaders.map _norm_header)
            (_resolve_columns _RES_MAPPING (rawHeaders.map _norm_header))
            cid uid db0 rows).db
        rw [runRows_db, runRows_db]
        apply alist_ext
        · exact akeys_nodup_foldlUpsert _ _ (akeys_nodup_foldlUpsert _ _ hnodup)
        · apply akeys_foldlUpsert_of_mem
          intro p hp
          exact mem_akeys_foldlUpsert _ _ p hp
        · intro k
          rw [alookup_foldlUpsert, alookup_foldlUpsert]
          cases hA : alookup (ingestKVs fail fb (rawHeaders.map _norm_header)
              (_resolve_columns _RES_MAPPING (rawHeaders.map _norm_header))
              cid uid rows).reverse k with
          | some v => simp [hA]
          | none => simp [hA]
    · have e1 : upload_resources fail fb rawHeaders rows cid uid db0 =
          (UploadResult.err422
            ⟨requiredMissing resourceRequired
                (_resolve_columns _RES_MAPPING (rawHeaders.map _norm_header)),
              rawHeaders.map _norm_header,
              _resolve_columns _RES_MAPPING (rawHeaders.map _norm_header)⟩,
           db0) := by
        unfold upload_resources
        rw [if_neg hempty, if_neg hmiss]
      rw [e1] at h1
      simp [succeedsNoFail] at h1

/-- Witness for C8 at a one-row table starting from an empty store. -/
theorem C8_ingestion_idempotent_witness :
    ((akeys []).Nodup ∧
      succeedsNoFail (upload_resources (fun _ => none) (fun _ => none)
        [S "resource_id", S "name", S "role", S "skills"]
        [[RawCell.str (S "r1"), RawCell.str (S "Ann"), RawCell.str (S "Dev"),
          RawCell.str (S "Py; Go")]] (S "c1") (S "u1") []).1 = true) ∧
    (succeedsNoFail (upload_resources (fun _ => none) (fun _ => none)
        [S "resource_id", S "name", S "role", S "skills"]
        [[RawCell.str (S "r1"), RawCell.str (S "Ann"), RawCell.str (S "Dev"),
          RawCell.str (S "Py; Go")]] (S "c1") (S "u1")
        (upload_resources (fun _ => none) (fun _ => none)
          [S "resource_id", S "name", S "role", S "skills"]
          [[RawCell.str (S "r1"), RawCell.str (S "Ann"), RawCell.str (S "Dev"),
            RawCell.str (S "Py; Go")]] (S "c1") (S "u1") []).2).1 = true ∧
      (upload_resources (fun _ => none) (fun _ => none)
        [S "resource_id", S "name", S "role", S "skills"]
        [[RawCell.str (S "r1"), RawCell.str (S "Ann"), RawCell.str (S "Dev"),
          RawCell.str (S "Py; Go")]] (S "c1") (S "u1")
        (upload_resources (fun _ => none) (fun _ => none)
          [S "resource_id", S "name", S "role", S "skills"]
          [[RawCell.str (S "r1"), RawCell.str (S "Ann"), RawCell.str (S "Dev"),
            RawCell.str (S "Py; Go")]] (S "c1") (S "u1") []).2).2 =
        (upload_resources (fun _ => none) (fun _ => none)
          [S "resource_id", S "name", S "role", S "skills"]
          [[RawCell.str (S "r1"), RawCell.str (S "Ann"), RawCell.str (S "Dev"),
            RawCell.str (S "Py; Go")]] (S "c1") (S "u1") []).2) :=
  ⟨⟨by decide, by decide⟩,
    C8_ingestion_idempotent (fun _ => none) (fun _ => none)
      [S "resource_id", S "name", S "role", S "skills"]
      [[RawCell.str (S "r1"), RawCell.str (S "Ann"), RawCell.str (S "Dev"),
        RawCell.str (S "Py; Go")]] (S "c1") (S "u1") []
      (by decide) (by decide)⟩

/-- Embedding of the slicing logic of get messages in app/storage.py, applied
to the valid stored messages in oldest-to-newest order: start and stop are
clamped differences from the length, then the Python slice is taken. Natural
subtraction models the Python max with zero. -/
def get_messages_slice {α : Type} (msgs : List α) (limit offset : Nat) : List α :=
  if msgs.length - (offset + limit) > msgs.length - offset then []
  else
    (msgs.drop (msgs.length - (offset + limit))).take
      ((msgs.length - offset) - (msgs.length - (offset + limit)))

/-- C6 counterexample: with two stored messages, offset zero and limit one,
the endpoint returns the newest message, not the oldest one the claim
demands. -/
theorem C6_counterexample :
    get_messages_slice [0, 1] 1 0 = [1] ∧ get_messages_slice [0, 1] 1 0 ≠ [0] := by decide

/-- C6 amended: the offset counts from the newest message, not the oldest:
the returned slice is obtained by dropping the newest offset messages, taking
up to limit of the remaining newest messages, and presenting that window in
oldest-to-newest order. -/
theorem C6_offset_counts_from_newest {α : Type} (msgs : List α) (limit offset : Nat) :
    get_messages_slice msgs limit offset =
      ((msgs.reverse.drop offset).take limit).reverse := by
  unfold get_messages_slice
  have hle : msgs.length - (offset + limit) ≤ msgs.length - offset :=
    Nat.sub_le_sub_left (Nat.le_add_right offset limit) msgs.length
  rw [if_neg (Nat.not_lt.mpr hle)]
  rw [List.reverse_take, List.reverse_drop, List.reverse_reverse, List.length_reverse,
    List.length_drop, List.length_reverse, List.drop_take]
  rw [show msgs.length - offset - limit = msgs.length - (offset + limit) from
    Nat.sub_sub msgs.length offset limit]

/-- The character class of the SAFE NAME RE pattern of app/config.py. -/
def SAFE_CHAR (c : Char) : Bool :=
  c.isAlpha || c.isDigit || c == '.' || c == '_' || c == '-'

/-- Replace each maximal run of unsafe characters with a single dash, the
behaviour of re.sub with a one-or-more character class pattern; the flag
records whether the previous character was part of an unsafe run. -/
def subSafeRuns : Bool → PyStr → PyStr
  | _, [] => []
  | prevUnsafe, c :: t =>
    if SAFE_CHAR c then c :: subSafeRuns false t
    else if prevUnsafe then subSafeRuns true t
    else '-' :: subSafeRuns true t

/-- Embedding of the function sanitize name of app/routes.py: default an
empty name to file, strip, spaces to underscores, collapse unsafe runs to
dashes, and default an empty result to file. -/
def _sanitize_name (name : PyStr) : PyStr :=
  if (subSafeRuns false (replaceChar ' ' '_'
      (pyStrip (if name.isEmpty then S "file" else name)))).isEmpty
  then S "file"
  else subSafeRuns false (replaceChar ' ' '_'
    (pyStrip (if name.isEmpty then S "file" else name)))

/-- Model of os.path.splitext on a bare file name: split before the last dot
that does not belong to the leading run of dots; no such dot means an empty
extension. -/
def splitext (s : PyStr) : PyStr × PyStr :=
  match (s.drop (s.takeWhile (fun c => c == '.')).length).reverse.findIdx?
      (fun c => c == '.') with
  | none => (s, [])
  | some j => (s.take (s.length - 1 - j), s.drop (s.length - 1 - j))

/-- Model of the collision loop of upload files in app/routes.py: keep the
sanitized name when free, otherwise try base underscore i extension for i
from one upward and return the first free candidate. The Python loop is
unbounded; the model bounds the search by the number of taken names plus one,
which cannot change which candidate is found first. -/
def freshName (taken : List PyStr) (safe : PyStr) : Option PyStr :=
  if !(taken.contains safe) then some safe
  else
    (List.range (taken.length + 1)).findSome? (fun j =>
      if !(taken.contains ((splitext safe).1 ++ '_' :: S (Nat.repr (j + 1)) ++ (splitext safe).2))
      then some ((splitext safe).1 ++ '_' :: S (Nat.repr (j + 1)) ++ (splitext safe).2)
      else none)

/-- Sanitisation as the claim words it: keep safe characters, replace every
other character with a dash, one for one. This definition follows the words
of the specification and is compared against the embedding of the source. -/
def spec_sanitize (name : PyStr) : PyStr :=
  name.map (fun c => if SAFE_CHAR c then c else '-')

/-- C7 counterexample: a name with a space. The source replaces the space
with an underscore before the regex substitution, while the claim says every
non-kept character, spaces included, becomes a dash. -/
theorem C7_counterexample :
    _sanitize_name (S "a b") = S "a_b" ∧ spec_sanitize (S "a b") = S "a-b" ∧
    _sanitize_name (S "a b") ≠ spec_sanitize (S "a b") := by decide

/-- Every character that the run substitution emits is safe. -/
theorem subSafeRuns_chars : ∀ (b : Bool) (l : PyStr), ∀ c ∈ subSafeRuns b l,
    SAFE_CHAR c = true := by
  intro b l
  induction l generalizing b with
  | nil => intro c hc; exact absurd hc (List.not_mem_nil c)
  | cons a t ih =>
    intro c hc
    unfold subSafeRuns at hc
    by_cases ha : SAFE_CHAR a = true
    · rw [if_pos ha] at hc
      rcases List.mem_cons.mp hc with rfl | hm
      · exact ha
      · exact ih false c hm
    · rw [if_neg ha] at hc
      by_cases hb : b = true
      · rw [if_pos hb] at hc
        exact ih true c hc
      · rw [if_neg hb] at hc
        rcases List.mem_cons.mp hc with rfl | hm
        · decide
        · exact ih true c hm

/-- C7 amended: the stored name keeps leading and trailing whitespace
stripped, spaces become underscores, and each maximal run of the remaining
disallowed characters becomes a single dash, with the literal name file as
the fallback for an empty result; so the output is nonempty and consists of
safe characters only. On a collision, the chosen name is free among the
existing names and has the form base underscore i extension with i at least
one. -/
theorem C7_sanitize_safe_and_collision_suffix :
    (∀ name : PyStr,
      (∀ c ∈ _sanitize_name name, SAFE_CHAR c = true) ∧ _sanitize_name name ≠ []) ∧
    (∀ (taken : List PyStr) (safe out : PyStr), freshName taken safe = some out →
      ¬ out ∈ taken ∧
        (out = safe ∨ ∃ i, 1 ≤ i ∧
          out = (splitext safe).1 ++ '_' :: S (Nat.repr i) ++ (splitext safe).2)) := by
  constructor
  · intro name
    constructor
    · intro c hc
      unfold _sanitize_name at hc
      by_cases he : (subSafeRuns false (replaceChar ' ' '_'
          (pyStrip (if name.isEmpty then S "file" else name)))).isEmpty = true
      · rw [if_pos he] at hc
        revert hc
        revert c
        decide
      · rw [if_neg he] at hc
        exact subSafeRuns_chars false _ c hc
    · unfold _sanitize_name
      by_cases he : (subSafeRuns false (replaceChar ' ' '_'
          (pyStrip (if name.isEmpty then S "file" else name)))).isEmpty = true
      · rw [if_pos he]
        decide
      · rw [if_neg he]
        intro hcon
        apply he
        rw [hcon]
        rfl
  · intro taken safe out h
    unfold freshName at h
    by_cases hc : taken.contains safe = true
    · rw [if_neg (by rw [hc]; decide)] at h
      obtain ⟨j, _, hj⟩ := List.exists_of_findSome?_eq_some h
      by_cases hfree : taken.contains ((splitext safe).1 ++ '_' ::
          S (Nat.repr (j + 1)) ++ (splitext safe).2) = true
      · rw [if_neg (by rw [hfree]; decide)] at hj
        exact Option.noConfusion hj
      · have hfree' : taken.contains ((splitext safe).1 ++ '_' ::
            S (Nat.repr (j + 1)) ++ (splitext safe).2) = false := by
          cases hx : taken.contains ((splitext safe).1 ++ '_' ::
              S (Nat.repr (j + 1)) ++ (splitext safe).2) with
          | false => rfl
          | true => exact absurd hx hfree
        rw [if_pos (by rw [hfree']; decide)] at hj
        have hout : out = (splitext safe).1 ++ '_' :: S (Nat.repr (j + 1)) ++ (splitext safe).2 :=
          (Option.some.inj hj).symm
        constructor
        · intro hmem
          have h2 : taken.contains out = true := List.elem_iff.mpr hmem
          rw [← hout] at hfree'
          rw [hfree'] at h2
          exact absurd h2 (by decide)
        · exact Or.inr ⟨j + 1, Nat.le_add_left 1 j, hout⟩
    · have hc' : taken.contains safe = false := by
        cases hx : taken.contains safe with
        | false => rfl
        | true => exact absurd hx hc
      rw [if_pos (by rw [hc']; decide)] at h
      have hout : out = safe := (Option.some.inj h).symm
      constructor
      · intro hmem
        rw [hout] at hmem
        have h2 : taken.contains safe = true := List.elem_iff.mpr hmem
        rw [hc'] at h2
        exact absurd h2 (by decide)
      · exact Or.inl hout

/-- Witness for the amended C7 at a concrete collision. -/
theorem C7_sanitize_safe_and_collision_suffix_witness :
    freshName [S "doc.txt"] (S "doc.txt") = some (S "doc_1.txt") ∧
    (¬ S "doc_1.txt" ∈ [S "doc.txt"] ∧
      (S "doc_1.txt" = S "doc.txt" ∨ ∃ i, 1 ≤ i ∧
        S "doc_1.txt" = (splitext (S "doc.txt")).1 ++ '_' :: S (Nat.repr i) ++
          (splitext (S "doc.txt")).2)) :=
  ⟨by decide, C7_sanitize_safe_and_collision_suffix.2
    [S "doc.txt"] (S "doc.txt") (S "doc_1.txt") (by decide)⟩

/-- The default user identifier of app/config.py. -/
def DEFAULT_USER : PyStr := S "default"

/-- Hexadecimal digit test for the conversation id pattern. -/
def isHexChar (c : Char) : Bool :=
  c.isDigit || ('a' ≤ c && c ≤ 'f') || ('A' ≤ c && c ≤ 'F')

/-- The conversation id pattern of app/config.py: exactly thirty-two
hexadecimal characters. -/
def ID_RE_ok (cid : PyStr) : Bool :=
  cid.length == 32 && cid.all isHexChar

/-- The user id pattern of app/config.py: one to sixty-four characters drawn
from letters, digits, underscore and dash. -/
def USER_RE_ok (u : PyStr) : Bool :=
  Nat.ble 1 u.length && Nat.ble u.length 64 &&
    u.all (fun c => c.isAlpha || c.isDigit || c == '_' || c == '-')

/-- Model of the Python falsy-or chaining on an optional string. -/
def pyOrStr (a : Option PyStr) (b : PyStr) : PyStr :=
  match a with
  | some s => if s.isEmpty then b else s
  | none => b

/-- Embedding of the function validate user of app/storage.py. -/
def _validate_user (u : Option PyStr) : Except (Nat × String) PyStr :=
  if USER_RE_ok (pyStrip (pyOrStr u DEFAULT_USER)) then
    Except.ok (pyStrip (pyOrStr u DEFAULT_USER))
  else Except.error (422, "invalid user id")

/-- A stored chat message: role, content and server timestamp. -/
structure MessageRec where
  role : PyStr
  content : PyStr
  ts : PyStr
deriving DecidableEq

/-- Embedding of append message of app/storage.py over the backing store of
the addressed conversation: the raw lines of its file, or none when the file
does not exist. The json encoding of a record is an external library call
passed as a parameter, and the timestamp is the server-assigned value. Every
branch returns the store after the call, so the theorems can speak about the
store after a rejected request. -/
def append_message (enc : MessageRec → PyStr) (u : Option PyStr) (cid : PyStr)
    (st : Option (List PyStr)) (role content ts : PyStr) :
    Option (List PyStr) × Except (Nat × String) MessageRec :=
  match _validate_user u with
  | Except.error e => (st, Except.error e)
  | Except.ok _ =>
    if !(ID_RE_ok cid) then
      (st, Except.error (422, "conversation_id must be uuid hex (32 chars)"))
    else
      match st with
      | none => (st, Except.error (404, "Conversation not found"))
      | some lines =>
        if (pyStrip content).isEmpty then
          (st, Except.error (422, "content must be non-empty"))
        else
          (some (lines ++ [enc ⟨role, pyStrip content, ts⟩]),
           Except.ok ⟨role, pyStrip content, ts⟩)

/-- C9 is confirmed: for a valid user and conversation id and an existing
conversation, a message whose content is empty after trimming is rejected
with the 422 validation error and the backing store is returned unchanged, so
the message count of the conversation is unchanged as well. -/
theorem C9_empty_message_rejected (enc : MessageRec → PyStr) (u : Option PyStr)
    (cid : PyStr) (lines : List PyStr) (role content ts : PyStr)
    (hu : ∃ x, _validate_user u = Except.ok x)
    (hcid : ID_RE_ok cid = true)
    (hc : pyStrip content = []) :
    append_message enc u cid (some lines) role content ts =
      (some lines, Except.error (422, "content must be non-empty")) := by
  obtain ⟨x, hx⟩ := hu
  simp [append_message, hx, hcid, hc]

/-- Witness for C9: the default user, an existing empty conversation and a
whitespace-only message. -/
theorem C9_empty_message_rejected_witness :
    ((∃ x, _validate_user none = Except.ok x) ∧
      ID_RE_ok (S "00000000000000000000000000000000") = true ∧
      pyStrip (S "   ") = []) ∧
    append_message (fun _ => []) none (S "00000000000000000000000000000000")
        (some []) (S "user") (S "   ") (S "ts") =
      (some [], Except.error (422, "content must be non-empty")) :=
  ⟨⟨⟨S "default", rfl⟩, rfl, rfl⟩,
    C9_empty_message_rejected (fun _ => []) none (S "00000000000000000000000000000000")
      [] (S "user") (S "   ") (S "ts") ⟨S "default", rfl⟩ rfl rfl⟩

end PRM
